import Mathlib

/-!
Verification development for the chess-customization CRUD service.

The definitions below are a shallow embedding of the TypeScript source:
* `src/utils/validation.ts` (isValidBase64, isValidSvgSize,
  validateCreateCustomization, validateUpdateCustomization, validateChessPiece),
* `src/storage/PostgreSQLChessCustomizationStorage.ts` (create, getById,
  update, delete, exists, transformRowsToCustomizations, isValidUUID),
* `src/middleware/errorHandler.ts` (errorHandler),
* `src/controllers/customizationController.ts` (updateCustomization).

JSON request bodies are modelled by the inductive `JsValue`; the relational
store (tables `customizations` and `chess_pieces` from `schema.sql`) is
modelled by the `DB` structure, with list order standing for the serial
`chess_pieces.id` order and timestamps as natural numbers.
-/

/-- A runtime JavaScript/JSON value as it reaches the validators and the
storage layer (`req.body` after `express.json()`). -/
inductive JsValue where
  | undefined : JsValue
  | null : JsValue
  | bool (b : Bool) : JsValue
  | num (n : Int) : JsValue
  | str (s : String) : JsValue
  | arr (xs : List JsValue) : JsValue
  | obj (fields : List (String × JsValue)) : JsValue

/-- JavaScript truthiness: `undefined`, `null`, `false`, `0` and `""` are
falsy; every array and object is truthy. -/
def truthy : JsValue → Bool
  | .undefined => false
  | .null => false
  | .bool b => b
  | .num n => n != 0
  | .str s => !s.data.isEmpty
  | .arr _ => true
  | .obj _ => true

/-- Models `typeof v === 'object'`: true exactly for `null`, arrays and
plain objects. -/
def isObjLike : JsValue → Bool
  | .null => true
  | .arr _ => true
  | .obj _ => true
  | _ => false

/-- Models `typeof v === 'string'`. -/
def isStr : JsValue → Bool
  | .str _ => true
  | _ => false

/-- Models `v === undefined`. -/
def isUndef : JsValue → Bool
  | .undefined => true
  | _ => false

/-- Property access `v.k`: on a plain object, the value bound to key `k`
(`undefined` when missing); on every other value that the validators reach
after their object guard, `undefined`. -/
def jsGet (v : JsValue) (k : String) : JsValue
  := match v with
  | .obj fields => (fields.lookup k).getD .undefined
  | _ => .undefined

/-- The characters the JavaScript `String.prototype.trim` removes. -/
def isJsWs (ch : Char) : Bool :=
  [' ', '\t', '\n', '\r', '\x0b', '\x0c', '\u00A0', '\uFEFF', '\u2028', '\u2029'].contains ch

/-- `s.trim()` on the underlying character list. -/
def jsTrimL (cs : List Char) : List Char :=
  ((cs.dropWhile isJsWs).reverse.dropWhile isJsWs).reverse

/-- True when the value is a string whose `.trim()` is empty (the third
disjunct of the validators' name checks). -/
def trimEmptyStr : JsValue → Bool
  | .str s => (jsTrimL s.data).isEmpty
  | _ => false

/-- The base64 alphabet `[A-Za-z0-9+/]` of the regex in `isValidBase64`. -/
def isB64Char (ch : Char) : Bool :=
  ('A' ≤ ch && ch ≤ 'Z') || ('a' ≤ ch && ch ≤ 'z') || ('0' ≤ ch && ch ≤ '9') || ch == '+' || ch == '/'

/-- `str.replace(/^data:[^;]+;base64,/, '')`: when the string starts with
`data:`, has at least one non-`;` character before the first `;`, and the
first `;` is immediately followed by `base64,`, drop that whole leading
piece; otherwise return the string unchanged. -/
def stripDataUrl (cs : List Char) : List Char :=
  if "data:".data.isPrefixOf cs then
    let rest := cs.drop 5
    let media := rest.takeWhile (fun ch => !(ch == ';'))
    if media.isEmpty then cs
    else
      let after := rest.drop media.length
      if ";base64,".data.isPrefixOf after then after.drop 8 else cs
  else cs

/-- The test of `/^[A-Za-z0-9+/]*={0,2}$/`: a run of alphabet characters
followed by at most two `=`. -/
def b64Shape (cs : List Char) : Bool :=
  let rest := cs.dropWhile isB64Char
  rest.all (fun ch => ch == '=') && decide (rest.length ≤ 2)

/-- `isValidBase64` from `validation.ts`.  Falsy or non-string input is
rejected by the leading guard (so the empty string, `null`, `undefined` and
every non-string are rejected); otherwise the data-URI prefix is stripped
and the remainder must match the base64 shape regex and have length a
multiple of 4.  The final `Buffer.from` never throws, so it adds nothing. -/
def isValidBase64 : JsValue → Bool
  | .str s =>
    if s.data.isEmpty then false
    else
      let cs := stripDataUrl s.data
      b64Shape cs && cs.length % 4 == 0
  | _ => false

/-- The source's size formula `(base64Data.length * 3) / 4`, as the exact
rational the JavaScript float division computes in this range. -/
def sizeInBytes (len : Nat) : ℚ := ((len : ℚ) * 3) / 4

/-- `isValidSvgSize` from `validation.ts`: after the same falsy/non-string
guard and prefix stripping, `(length * 3) / 4` must be at most `100 * 1024`
bytes.  The comparison is written multiplied out over ℕ (`3 * len ≤ 409600`),
which `sizeInBytes_le_iff` proves equal to the source's division formula. -/
def isValidSvgSize : JsValue → Bool
  | .str s =>
    if s.data.isEmpty then false
    else decide (3 * (stripDataUrl s.data).length ≤ 409600)
  | _ => false

/-- The integer comparison in `isValidSvgSize` is exactly the source's
`(len * 3) / 4 <= 100 * 1024` float comparison. -/
theorem sizeInBytes_le_iff (len : Nat) : sizeInBytes len ≤ 100 * 1024 ↔ 3 * len ≤ 409600 := by
  unfold sizeInBytes
  rw [div_le_iff₀ (by norm_num : (0:ℚ) < 4)]
  rw [show ((100 : ℚ) * 1024 * 4) = ((409600 : Nat) : ℚ) by norm_num]
  rw [show ((len : ℚ) * 3) = ((3 * len : Nat) : ℚ) by push_cast; ring]
  exact_mod_cast Iff.rfl

/-- The closed set of piece types from `validateChessPiece`. -/
def validTypes : List String := ["pawn", "rook", "knight", "bishop", "queen", "king"]

/-- The closed set of piece colors from `validateChessPiece`. -/
def validColors : List String := ["white", "black"]

/-- `validTypes.includes(piece.type)` / `validColors.includes(piece.color)`:
strict-equality membership, false for every non-string value. -/
def jsIncludes (xs : List String) : JsValue → Bool
  | .str s => xs.contains s
  | _ => false

/-- `!piece.type || !validTypes.includes(piece.type)`. -/
def pieceTypeBad (v : JsValue) : Bool := !truthy v || !jsIncludes validTypes v

/-- `!piece.color || !validColors.includes(piece.color)`. -/
def pieceColorBad (v : JsValue) : Bool := !truthy v || !jsIncludes validColors v

/-- The svgData checks of `validateChessPiece`, given the message pfx. -/
def pieceSvgDataErrs (pfx : String) (v : JsValue) : List String :=
  if !(truthy v && isStr v) then [pfx ++ " svgData is required and must be a string"]
  else
    (if isValidBase64 v then [] else [pfx ++ " svgData must be valid base64 format"]) ++
    (if isValidSvgSize v then [] else [pfx ++ " svgData exceeds maximum size limit of 100KB"])

/-- `validateChessPiece(piece, index)` from `validation.ts`. -/
def validateChessPiece (piece : JsValue) (index : Nat) : List String :=
  let pfx := "Piece at index " ++ toString index ++ ":"
  if !(truthy piece && isObjLike piece) then [pfx ++ " must be an object"]
  else
    (if pieceTypeBad (jsGet piece "type") then
      [pfx ++ " type must be one of: " ++ String.intercalate ", " validTypes] else []) ++
    (if pieceColorBad (jsGet piece "color") then
      [pfx ++ " color must be one of: " ++ String.intercalate ", " validColors] else []) ++
    pieceSvgDataErrs pfx (jsGet piece "svgData")

/-- `pieces.forEach((piece, index) => ...)`: the per-piece errors collected
in array order, carrying the running index. -/
def piecesErrsAux : Nat → List JsValue → List String
  | _, [] => []
  | i, p :: rest => validateChessPiece p i ++ piecesErrsAux (i + 1) rest

/-- The result record `{ isValid: boolean; errors: string[] }`. -/
structure ValidationResult where
  isValid : Bool
  errors : List String
deriving DecidableEq

/-- The name rule of `validateCreateCustomization`:
`!data.name || typeof data.name !== 'string' || data.name.trim().length === 0`. -/
def reqNameBad (v : JsValue) : Bool := !truthy v || !isStr v || trimEmptyStr v

/-- The name errors of `validateCreateCustomization`. -/
def createNameErrs (data : JsValue) : List String :=
  if reqNameBad (jsGet data "name") then ["Name is required and must be a non-empty string"] else []

/-- The pieces errors of `validateCreateCustomization`: not an array, empty
array, or the collected per-piece errors. -/
def createPiecesErrs (data : JsValue) : List String :=
  match jsGet data "pieces" with
  | .arr [] => ["At least one chess piece is required"]
  | .arr ps => piecesErrsAux 0 ps
  | _ => ["Pieces must be an array"]

/-- The description rule shared verbatim by both validators:
`data.description !== undefined && typeof data.description !== 'string'`. -/
def descriptionErrs (data : JsValue) : List String :=
  match jsGet data "description" with
  | .undefined => []
  | .str _ => []
  | _ => ["Description must be a string if provided"]

/-- The boardSvg rule shared verbatim by both validators. -/
def boardSvgErrs (v : JsValue) : List String :=
  match v with
  | .undefined => []
  | .str s =>
    (if isValidBase64 (.str s) then [] else ["Board SVG must be valid base64 format"]) ++
    (if isValidSvgSize (.str s) then [] else ["Board SVG exceeds maximum size limit of 100KB"])
  | _ => ["Board SVG must be a string if provided"]

/-- `validateCreateCustomization` from `validation.ts`: the body guard, then
all field errors collected in source order (name, pieces, description,
boardSvg), with `isValid` true exactly when no error was collected. -/
def validateCreateCustomization (data : JsValue) : ValidationResult :=
  if !(truthy data && isObjLike data) then ⟨false, ["Request body is required"]⟩
  else
    let errs := createNameErrs data ++ createPiecesErrs data ++ descriptionErrs data ++
      boardSvgErrs (jsGet data "boardSvg")
    ⟨errs.isEmpty, errs⟩

/-- `data.name !== undefined || data.description !== undefined ||
data.boardSvg !== undefined || data.pieces !== undefined`. -/
def hasUpdateField (data : JsValue) : Bool :=
  !isUndef (jsGet data "name") || !isUndef (jsGet data "description") ||
  !isUndef (jsGet data "boardSvg") || !isUndef (jsGet data "pieces")

/-- The name rule of `validateUpdateCustomization` (only when provided). -/
def updateNameErrs (data : JsValue) : List String :=
  match jsGet data "name" with
  | .undefined => []
  | v => if !isStr v || trimEmptyStr v then ["Name must be a non-empty string if provided"] else []

/-- The pieces rule of `validateUpdateCustomization` (only when provided). -/
def updatePiecesErrs (data : JsValue) : List String :=
  match jsGet data "pieces" with
  | .undefined => []
  | .arr [] => ["At least one chess piece is required if pieces array is provided"]
  | .arr ps => piecesErrsAux 0 ps
  | _ => ["Pieces must be an array if provided"]

/-- `validateUpdateCustomization` from `validation.ts`: the body guard, the
at-least-one-field rule, then the per-field rules in source order. -/
def validateUpdateCustomization (data : JsValue) : ValidationResult :=
  if !(truthy data && isObjLike data) then ⟨false, ["Request body is required"]⟩
  else
    let errs :=
      (if hasUpdateField data then []
       else ["At least one field (name, description, boardSvg, or pieces) must be provided for update"]) ++
      updateNameErrs data ++ descriptionErrs data ++ boardSvgErrs (jsGet data "boardSvg") ++
      updatePiecesErrs data
    ⟨errs.isEmpty, errs⟩

example : validateCreateCustomization .null = ⟨false, ["Request body is required"]⟩ := by decide
example : validateUpdateCustomization (.obj []) =
    ⟨false, ["At least one field (name, description, boardSvg, or pieces) must be provided for update"]⟩ := by
  decide
example : isValidBase64 (.str "QUJD") = true := by decide
example : isValidBase64 (.str "QQ==") = true := by decide
example : isValidBase64 (.str "QQQ") = false := by decide
example : isValidBase64 (.str "data:image/svg+xml;base64,QUJD") = true := by decide
example : isValidSvgSize (.str "QUJD") = true := by decide

/-- A stored chess piece's data columns (`type`, `color`, `svg_data`; all
`NOT NULL` in `schema.sql`). -/
structure PieceRec where
  type : String
  color : String
  svgData : String
deriving DecidableEq

/-- A row of the `customizations` table: `id`, `name NOT NULL`,
`description` (nullable), `board_svg` (nullable), `created_at`,
`updated_at`. -/
structure CustRow where
  id : String
  name : String
  description : Option String
  boardSvg : Option String
  createdAt : Nat
  updatedAt : Nat
deriving DecidableEq

/-- A row of the `chess_pieces` table (the serial primary key is the list
position in `DB.pieceRows`). -/
structure PieceRow where
  cid : String
  piece : PieceRec
deriving DecidableEq

/-- The relational store: `customizations` rows in insertion order and
`chess_pieces` rows in serial-id order. -/
structure DB where
  custs : List CustRow
  pieceRows : List PieceRow
deriving DecidableEq

/-- The assembled `ChessCustomization` object the storage layer returns. -/
structure ChessCustomization where
  id : String
  name : String
  description : Option String
  boardSvg : Option String
  pieces : List PieceRec
  createdAt : Nat
  updatedAt : Nat
deriving DecidableEq

/-- `x || null` for an optional string column value: a falsy value
(`undefined`, `null`, `""`) is stored as SQL NULL, a non-empty string as
itself.  (Truthy non-string values never reach the insert on validated
input and are outside the model.) -/
def jsOrNull : JsValue → Option String
  | .str s => if s.data.isEmpty then none else some s
  | _ => none

/-- The three columns the insert loop reads off one piece object; `none`
when a field is not a string (the parameterized insert would then fail at
the database, which the model folds into the outer `Option`). -/
def jsPieceFields (p : JsValue) : Option PieceRec :=
  match jsGet p "type", jsGet p "color", jsGet p "svgData" with
  | .str t, .str c, .str s => some ⟨t, c, s⟩
  | _, _, _ => none

/-- The `for (const piece of data.pieces)` insert loop: each element in
order, aborting on the first failure. -/
def mapOptPieces : List JsValue → Option (List PieceRec)
  | [] => some []
  | p :: ps =>
    match jsPieceFields p, mapOptPieces ps with
    | some r, some rs => some (r :: rs)
    | _, _ => none

/-- The claim-side projection of an optional string field of the payload
(`undefined` ↦ absent, a string ↦ itself). -/
def jsOptStr : JsValue → Option String
  | .str s => some s
  | _ => none

/-- True when the value is the string `""` (used to state the empty-string
coercion hypotheses in a decidable form). -/
def isEmptyStrVal : JsValue → Bool
  | .str s => s.data.isEmpty
  | _ => false

/-- `[0-9a-f]` with the regex's `i` flag. -/
def isHexDigit (ch : Char) : Bool :=
  ('0' ≤ ch && ch ≤ '9') || ('a' ≤ ch && ch ≤ 'f') || ('A' ≤ ch && ch ≤ 'F')

/-- Split a character list at every `-` (the shape underlying the UUID
regex's five hyphen-separated groups). -/
def splitHyphens : List Char → List (List Char)
  | [] => [[]]
  | c :: rest =>
    if c == '-' then [] :: splitHyphens rest
    else
      match splitHyphens rest with
      | g :: gs => (c :: g) :: gs
      | [] => [[c]]

/-- `isValidUUID` from the storage class:
`/^[0-9a-f]{8}-[0-9a-f]{4}-[1-5][0-9a-f]{3}-[89ab][0-9a-f]{3}-[0-9a-f]{12}$/i`. -/
def isValidUUID (s : String) : Bool :=
  match splitHyphens s.data with
  | [a, b, c, d, e] =>
    decide (a.length = 8) && decide (b.length = 4) && decide (c.length = 4) &&
    decide (d.length = 4) && decide (e.length = 12) &&
    a.all isHexDigit && b.all isHexDigit && c.all isHexDigit &&
    d.all isHexDigit && e.all isHexDigit &&
    (match c with
     | ch :: _ => '1' ≤ ch && ch ≤ '5'
     | [] => false) &&
    (match d with
     | ch :: _ => ['8', '9', 'a', 'b', 'A', 'B'].contains ch
     | [] => false)
  | _ => false

/-- The spec's laxer "canonical 36-character hyphenated hex identifier
pattern": five hyphen-separated hex groups of lengths 8-4-4-4-12, with no
version or variant restriction.  Modelled from the spec (§3) for claim C6;
the code's own check `isValidUUID` is strictly stronger. -/
def isCanonicalUUID (s : String) : Bool :=
  match splitHyphens s.data with
  | [a, b, c, d, e] =>
    decide (a.length = 8) && decide (b.length = 4) && decide (c.length = 4) &&
    decide (d.length = 4) && decide (e.length = 12) &&
    a.all isHexDigit && b.all isHexDigit && c.all isHexDigit &&
    d.all isHexDigit && e.all isHexDigit
  | _ => false

namespace PG

/-- `create` from `PostgreSQLChessCustomizationStorage`: insert the parent
row (with `data.description || null` and `data.boardSvg || null`), then one
`chess_pieces` row per element of `data.pieces` in array order, and return
the assembled customization built from the `RETURNING` row plus the pieces
just inserted.  `freshId`/`now` stand for the database-generated
`gen_random_uuid()` id and `NOW()` timestamps; `none` models a database
error (non-string column values), which on validated payloads never
happens. -/
def create (db : DB) (freshId : String) (now : Nat) (data : JsValue) :
    Option (DB × ChessCustomization) :=
  match jsGet data "name", jsGet data "pieces" with
  | .str nm, .arr ps =>
    match mapOptPieces ps with
    | some rs =>
      let row : CustRow :=
        ⟨freshId, nm, jsOrNull (jsGet data "description"), jsOrNull (jsGet data "boardSvg"), now, now⟩
      let db' : DB := ⟨db.custs ++ [row], db.pieceRows ++ rs.map (fun r => ⟨freshId, r⟩)⟩
      some (db', ⟨freshId, nm, row.description, row.boardSvg, rs, now, now⟩)
    | none => none
  | _, _ => none

/-- One row of the `getById` LEFT JOIN result: the parent columns together
with the joined piece columns (`none` for the null group when the
customization has no pieces). -/
def joinRows (db : DB) (id : String) : List (CustRow × Option PieceRec) :=
  (db.custs.filter (fun c => c.id == id)).flatMap (fun c =>
    match db.pieceRows.filter (fun p => p.cid == c.id) with
    | [] => [(c, none)]
    | ps => ps.map (fun p => (c, some p.piece)))

/-- The truthiness test `row.type && row.color && row.svg_data` on a joined
piece: all three strings non-empty. -/
def pieceTruthy (r : PieceRec) : Bool :=
  !r.type.data.isEmpty && !r.color.data.isEmpty && !r.svgData.data.isEmpty

/-- One step of `transformRowsToCustomizations`: register the customization
on first sight (insertion-ordered map), then append the row's piece to it
when the piece columns are all truthy. -/
def addRow (acc : List ChessCustomization) (row : CustRow × Option PieceRec) :
    List ChessCustomization :=
  let c := row.1
  let acc' := if acc.any (fun g => g.id == c.id) then acc
    else acc ++ [⟨c.id, c.name, c.description, c.boardSvg, [], c.createdAt, c.updatedAt⟩]
  match row.2 with
  | some p =>
    if pieceTruthy p then
      acc'.map (fun g => if g.id == c.id then { g with pieces := g.pieces ++ [p] } else g)
    else acc'
  | none => acc'

/-- `transformRowsToCustomizations` from the storage class: fold the flat
join rows into one customization per distinct id, accumulating pieces. -/
def transformRowsToCustomizations (rows : List (CustRow × Option PieceRec)) :
    List ChessCustomization :=
  rows.foldl addRow []

/-- `getById`: malformed id ⇒ `undefined`; no joined rows ⇒ `undefined`;
otherwise the first transformed customization. -/
def getById (db : DB) (id : String) : Option ChessCustomization :=
  if !isValidUUID id then none
  else
    let rows := joinRows db id
    if rows.isEmpty then none
    else (transformRowsToCustomizations rows).head?

/-- An updatable string column of `update`: absent field ⇒ keep, string ⇒
set.  `none` models the database rejecting a non-string value for the
`NOT NULL` name column. -/
def updStrOpt : JsValue → Option (Option String)
  | .undefined => some none
  | .str s => some (some s)
  | _ => none

/-- An updatable nullable column of `update`: absent ⇒ keep, string ⇒ set,
`null` ⇒ set to SQL NULL. -/
def updNullable : JsValue → Option (Option (Option String))
  | .undefined => some none
  | .str s => some (some (some s))
  | .null => some (some none)
  | _ => none

/-- The pieces part of `update`'s payload: absent ⇒ keep the stored set,
array ⇒ the replacement records. -/
def updPieces : JsValue → Option (Option (List PieceRec))
  | .undefined => some none
  | .arr ps => (mapOptPieces ps).map some
  | _ => none

/-- Apply `update`'s dynamic `UPDATE customizations SET ...` to one row:
when no field is supplied no statement is issued (so `updated_at` is
untouched); otherwise the supplied columns change and the schema trigger
refreshes `updated_at` to `now`. -/
def applyUpd (c : CustRow) (now : Nat) (nmU : Option String)
    (dU bU : Option (Option String)) : CustRow :=
  if nmU.isNone && dU.isNone && bU.isNone then c
  else ⟨c.id, nmU.getD c.name, dU.getD c.description, bU.getD c.boardSvg, c.createdAt, now⟩

/-- `update` from the storage class: malformed id ⇒ `undefined`; missing row
⇒ rollback and `undefined`; otherwise update the supplied parent columns,
and when `pieces` is supplied delete every existing `chess_pieces` row of
this customization and insert the new set in array order (at fresh, larger
serial ids, hence appended); finally re-read through `getById`. -/
def update (db : DB) (now : Nat) (id : String) (data : JsValue) :
    Option (DB × Option ChessCustomization) :=
  if !isValidUUID id then some (db, none)
  else if !(db.custs.any (fun c => c.id == id)) then some (db, none)
  else
    match updStrOpt (jsGet data "name"), updNullable (jsGet data "description"),
        updNullable (jsGet data "boardSvg"), updPieces (jsGet data "pieces") with
    | some nmU, some dU, some bU, some pU =>
      let custs' := db.custs.map (fun c => if c.id == id then applyUpd c now nmU dU bU else c)
      let pieceRows' :=
        match pU with
        | none => db.pieceRows
        | some rs => db.pieceRows.filter (fun p => !(p.cid == id)) ++ rs.map (fun r => ⟨id, r⟩)
      let db' : DB := ⟨custs', pieceRows'⟩
      some (db', getById db' id)
    | _, _, _, _ => none

/-- `delete` from the storage class: malformed id ⇒ `false` without touching
the store; otherwise delete the parent row (children cascade via the
schema's `ON DELETE CASCADE`) and report whether a row was removed. -/
def deleteById (db : DB) (id : String) : DB × Bool :=
  if !isValidUUID id then (db, false)
  else
    (⟨db.custs.filter (fun c => !(c.id == id)), db.pieceRows.filter (fun p => !(p.cid == id))⟩,
     db.custs.any (fun c => c.id == id))

/-- `exists` from the storage class (named `existsId` here): malformed id ⇒
`false`, otherwise whether a `customizations` row with this id exists. -/
def existsId (db : DB) (id : String) : Bool :=
  isValidUUID id && db.custs.any (fun c => c.id == id)

end PG

/-- The error values reaching the `errorHandler` middleware:
a `ValidationError` (statusCode fixed at 400 by its class), an `AppError`
subclass (with its name, message and statusCode), or anything else — other
`Error`s with their `name` and whether they carry a `body` property, and
non-Error thrown values (whose `name` is no particular string). -/
inductive JsError where
  | validation (errors : List String) : JsError
  | app (name : String) (message : String) (statusCode : Nat) : JsError
  | other (name : String) (hasBody : Bool) (message : String) : JsError

/-- One JSON error/success response together with its HTTP status. -/
structure HttpResponse where
  status : Nat
  success : Bool
  error : Option String
  message : String
  details : Option (List String)
  data : Option ChessCustomization
deriving DecidableEq

/-- `errorHandler` from `middleware/errorHandler.ts`: ValidationError ⇒ 400
with `details`; AppError ⇒ its own statusCode, name and message; a
`SyntaxError` with a `body` property ⇒ 400 Invalid JSON; everything else ⇒
500 `{success:false, error:"Internal server error", message:"An unexpected
error occurred"}`. -/
def errorHandler : JsError → HttpResponse
  | .validation errs => ⟨400, false, some "Validation failed", "Invalid request data", some errs, none⟩
  | .app nm msg code => ⟨code, false, some nm, msg, none, none⟩
  | .other nm hasBody _ =>
    if nm == "SyntaxError" && hasBody then
      ⟨400, false, some "Invalid JSON", "Request body contains invalid JSON", none, none⟩
    else ⟨500, false, some "Internal server error", "An unexpected error occurred", none, none⟩

/-- `updateCustomization` from `customizationController.ts` (PUT /:id),
composed with the error middleware the thrown `ValidationError`s reach: the
non-empty-id guard, the existence check (404), body validation (400 via
`errorHandler`), then the storage update — `undefined` despite the prior
existence check yields the defensive 500, success yields 200 with the
updated customization. -/
def updateCustomization (db : DB) (now : Nat) (id : String) (body : JsValue) :
    Option (DB × HttpResponse) :=
  if id.data.isEmpty then
    some (db, errorHandler (.validation ["Customization ID is required and must be a string"]))
  else if !PG.existsId db id then
    some (db, ⟨404, false, some "Not found", "Customization with ID " ++ id ++ " not found", none, none⟩)
  else
    let v := validateUpdateCustomization body
    if !v.isValid then some (db, errorHandler (.validation v.errors))
    else
      match PG.update db now id body with
      | none => none
      | some (db', none) =>
        some (db', ⟨500, false, some "Update failed", "Failed to update customization", none, none⟩)
      | some (db', some c) =>
        some (db', ⟨200, true, none, "Customization updated successfully", none, some c⟩)

example : isValidUUID "123e4567-e89b-12d3-a456-426614174000" = true := by decide
example : isValidUUID "not-a-uuid" = false := by decide
example : isValidUUID "" = false := by decide

/-- Claim C9: every error reaching the central error handler that is neither
a ValidationError, an AppError, nor a SyntaxError carrying a `body` property
(the JSON-parse failure shape) is mapped to status 500 with the generic
envelope `{success:false, error:"Internal server error", message:"An
unexpected error occurred"}`, whatever its name, message or shape. -/
theorem c9_unknown_errors_map_to_500 (nm : String) (hasBody : Bool) (msg : String)
    (h : (nm == "SyntaxError" && hasBody) = false) :
    errorHandler (.other nm hasBody msg) =
      ⟨500, false, some "Internal server error", "An unexpected error occurred", none, none⟩ := by
  simp only [errorHandler, h]
  rfl

/-- Claim C9 witness: a `TypeError` with a `body` property is still mapped
to the generic 500 envelope. -/
theorem c9_unknown_errors_map_to_500_witness :
    (("TypeError" == "SyntaxError" && true) = false) ∧
    errorHandler (.other "TypeError" true "boom") =
      ⟨500, false, some "Internal server error", "An unexpected error occurred", none, none⟩ :=
  ⟨by decide, c9_unknown_errors_map_to_500 "TypeError" true "boom" (by decide)⟩

/-- Claim C7: on a body that is absent (`undefined`), `null`, or not of
JavaScript type object, both validators return invalid with the single
error "Request body is required"; being total functions of the model they
throw nothing on any input. -/
theorem c7_body_guard (v : JsValue) (h : v = .null ∨ v = .undefined ∨ isObjLike v = false) :
    validateCreateCustomization v = ⟨false, ["Request body is required"]⟩ ∧
    validateUpdateCustomization v = ⟨false, ["Request body is required"]⟩ := by
  have hguard : (truthy v && isObjLike v) = false := by
    rcases h with h | h | h
    · subst h; rfl
    · subst h; rfl
    · simp [h]
  exact ⟨by simp [validateCreateCustomization, hguard],
         by simp [validateUpdateCustomization, hguard]⟩

/-- Claim C7 witness: the number `5` is not an object, and both validators
report exactly "Request body is required" on it. -/
theorem c7_body_guard_witness :
    (JsValue.num 5 = .null ∨ JsValue.num 5 = .undefined ∨ isObjLike (.num 5) = false) ∧
    (validateCreateCustomization (.num 5) = ⟨false, ["Request body is required"]⟩ ∧
     validateUpdateCustomization (.num 5) = ⟨false, ["Request body is required"]⟩) :=
  ⟨Or.inr (Or.inr rfl), c7_body_guard (.num 5) (Or.inr (Or.inr rfl))⟩

/-- Claim C5: `isValidBase64` returns false whenever the payload (after
data-URI prefix removal) has length not a multiple of 4, or contains a
character outside the base64 alphabet (other than the `=` padding the
regex's `={0,2}` tail admits); and it returns false on the empty string,
`null`, `undefined`, and every non-string value. -/
theorem c5_isValidBase64_rejections :
    (∀ s : String, (stripDataUrl s.data).length % 4 ≠ 0 → isValidBase64 (.str s) = false) ∧
    (∀ s : String, ∀ ch ∈ stripDataUrl s.data, isB64Char ch = false → ch ≠ '=' →
      isValidBase64 (.str s) = false) ∧
    isValidBase64 (.str "") = false ∧
    isValidBase64 .null = false ∧
    isValidBase64 .undefined = false ∧
    (∀ v : JsValue, isStr v = false → isValidBase64 v = false) := by
  refine ⟨?_, ?_, by decide, rfl, rfl, ?_⟩
  · intro s h
    by_cases he : s.data.isEmpty
    · simp [isValidBase64, he]
    · simp only [isValidBase64, he, Bool.false_eq_true, if_false, Bool.and_eq_false_imp]
      intro _
      simpa using h
  · intro s ch hmem hb he
    by_cases hemp : s.data.isEmpty
    · simp [isValidBase64, hemp]
    · have hrest : ch ∈ (stripDataUrl s.data).dropWhile isB64Char := by
        have hsplit := List.takeWhile_append_dropWhile (p := isB64Char) (l := stripDataUrl s.data)
        rw [← hsplit] at hmem
        rcases List.mem_append.mp hmem with h1 | h1
        · exact absurd (List.mem_takeWhile_imp h1) (by simp [hb])
        · exact h1
      have hall : ((stripDataUrl s.data).dropWhile isB64Char).all (fun c => c == '=') = false := by
        simp only [List.all_eq_false]
        exact ⟨ch, hrest, by simpa using he⟩
      simp [isValidBase64, hemp, b64Shape, hall]
  · intro v hv
    cases v <;> simp_all [isValidBase64, isStr]

/-- Claim C5 witness: `"QQQ"` has stripped length 3, not a multiple of 4,
and `isValidBase64` rejects it. -/
theorem c5_isValidBase64_rejections_witness :
    ((stripDataUrl ("QQQ" : String).data).length % 4 ≠ 0) ∧
    isValidBase64 (.str "QQQ") = false :=
  ⟨by decide, c5_isValidBase64_rejections.1 "QQQ" (by decide)⟩

/-- The code's UUID check only accepts strings of the canonical hyphenated
hex shape (it additionally constrains the version and variant digits). -/
theorem isCanonicalUUID_of_isValidUUID (s : String) (h : isValidUUID s = true) :
    isCanonicalUUID s = true := by
  unfold isValidUUID at h
  unfold isCanonicalUUID
  split at h
  · next a b c d e heq =>
    simp only [Bool.and_eq_true, decide_eq_true_eq] at h ⊢
    tauto
  · exact absurd h (by simp)

/-- Claim C6: an id that fails the canonical 36-character hyphenated hex
pattern is treated by the persistence gateway as absent rather than a
format error: `getById` and `update` return the absent signal without
touching the store, and `delete` and `exists` return `false`. -/
theorem c6_malformed_id_treated_as_absent (db : DB) (now : Nat) (id : String) (data : JsValue)
    (h : isCanonicalUUID id = false) :
    PG.getById db id = none ∧ PG.update db now id data = some (db, none) ∧
    PG.deleteById db id = (db, false) ∧ PG.existsId db id = false := by
  have hv : isValidUUID id = false := by
    cases hvv : isValidUUID id
    · rfl
    · exact absurd (isCanonicalUUID_of_isValidUUID id hvv) (by simp [h])
  refine ⟨?_, ?_, ?_, ?_⟩ <;> simp [PG.getById, PG.update, PG.deleteById, PG.existsId, hv]

/-- Claim C6 witness: the id `"zzz"` is not canonical and all four
operations report absence on it. -/
theorem c6_malformed_id_treated_as_absent_witness :
    isCanonicalUUID "zzz" = false ∧
    (PG.getById ⟨[], []⟩ "zzz" = none ∧ PG.update ⟨[], []⟩ 0 "zzz" (.obj []) = some (⟨[], []⟩, none) ∧
     PG.deleteById ⟨[], []⟩ "zzz" = (⟨[], []⟩, false) ∧ PG.existsId ⟨[], []⟩ "zzz" = false) :=
  ⟨by decide, c6_malformed_id_treated_as_absent ⟨[], []⟩ 0 "zzz" (.obj []) (by decide)⟩

/-- Claim C8: on an object body, `validateCreateCustomization` collects all
violations: a missing or empty-after-trim `name` contributes exactly the
message "Name is required and must be a non-empty string", `pieces: []`
contributes "At least one chess piece is required", and a body with both
defects reports both messages in the one result. -/
theorem c8_create_collects_all_violations (data : JsValue)
    (hobj : (truthy data && isObjLike data) = true) :
    ((jsGet data "name" = .undefined ∨
        ∃ s, jsGet data "name" = .str s ∧ (jsTrimL s.data).isEmpty = true) →
      "Name is required and must be a non-empty string" ∈ (validateCreateCustomization data).errors) ∧
    (jsGet data "pieces" = .arr [] →
      "At least one chess piece is required" ∈ (validateCreateCustomization data).errors) ∧
    ((jsGet data "name" = .undefined ∨
        ∃ s, jsGet data "name" = .str s ∧ (jsTrimL s.data).isEmpty = true) →
      jsGet data "pieces" = .arr [] →
      "Name is required and must be a non-empty string" ∈ (validateCreateCustomization data).errors ∧
      "At least one chess piece is required" ∈ (validateCreateCustomization data).errors) := by
  have hname : ∀ _ : (jsGet data "name" = .undefined ∨
      ∃ s, jsGet data "name" = .str s ∧ (jsTrimL s.data).isEmpty = true),
      "Name is required and must be a non-empty string" ∈ (validateCreateCustomization data).errors := by
    intro h
    have hbad : reqNameBad (jsGet data "name") = true := by
      rcases h with h | ⟨s, hs, ht⟩
      · rw [h]; rfl
      · rw [hs]
        simp [reqNameBad, trimEmptyStr, ht]
    simp [validateCreateCustomization, hobj, createNameErrs, hbad]
  have hpieces : ∀ _ : jsGet data "pieces" = .arr [],
      "At least one chess piece is required" ∈ (validateCreateCustomization data).errors := by
    intro h
    simp [validateCreateCustomization, hobj, createPiecesErrs, h]
  exact ⟨hname, hpieces, fun h1 h2 => ⟨hname h1, hpieces h2⟩⟩

/-- Claim C8 witness: the body `{pieces: []}` (name missing, pieces empty)
yields both messages in one validation result. -/
theorem c8_create_collects_all_violations_witness :
    ((truthy (JsValue.obj [("pieces", .arr [])]) && isObjLike (.obj [("pieces", .arr [])])) = true) ∧
    jsGet (.obj [("pieces", .arr [])]) "name" = .undefined ∧
    jsGet (.obj [("pieces", .arr [])]) "pieces" = .arr [] ∧
    ("Name is required and must be a non-empty string" ∈
      (validateCreateCustomization (.obj [("pieces", .arr [])])).errors ∧
     "At least one chess piece is required" ∈
      (validateCreateCustomization (.obj [("pieces", .arr [])])).errors) :=
  ⟨rfl, rfl, rfl,
   (c8_create_collects_all_violations (.obj [("pieces", .arr [])]) rfl).2.2 (Or.inl rfl) rfl⟩

/-- The empty string is not a valid UUID (its hyphen split is a single
empty group). -/
theorem isValidUUID_of_empty (s : String) (h : s.data = []) : isValidUUID s = false := by
  unfold isValidUUID
  rw [h]
  rfl

/-- `validateUpdateCustomization` on the empty object body: invalid, with
exactly the at-least-one-field message (naming the code's `boardSvg`
field). -/
theorem validateUpdate_empty_obj :
    validateUpdateCustomization (.obj []) =
      ⟨false, ["At least one field (name, description, boardSvg, or pieces) must be provided for update"]⟩ := by
  decide

/-- Claim C4 (amended): a PUT on an existing customization with the empty
object body is answered 400 with a `details` array containing "At least one
field (name, description, boardSvg, or pieces) must be provided for update"
— the message names the code's `boardSvg` field, not the spec's renamed
`boardImage`. -/
theorem c4_update_empty_body_400 (db : DB) (now : Nat) (id : String)
    (h : PG.existsId db id = true) :
    ∃ r, updateCustomization db now id (.obj []) = some (db, r) ∧ r.status = 400 ∧
      r.details =
        some ["At least one field (name, description, boardSvg, or pieces) must be provided for update"] := by
  have hv : isValidUUID id = true := by
    simp only [PG.existsId, Bool.and_eq_true] at h
    exact h.1
  have hne : id.data.isEmpty = false := by
    cases hd : id.data.isEmpty
    · rfl
    · exact absurd hv (by simp [isValidUUID_of_empty id (by simpa using hd)])
  refine ⟨⟨400, false, some "Validation failed", "Invalid request data",
    some ["At least one field (name, description, boardSvg, or pieces) must be provided for update"],
    none⟩, ?_, rfl, rfl⟩
  simp [updateCustomization, hne, h, validateUpdate_empty_obj, errorHandler]

/-- A valid version-1 UUID used as a concrete generated id. -/
def uuid0 : String := "123e4567-e89b-12d3-a456-426614174000"

/-- A one-customization store (no pieces) keyed by `uuid0`. -/
def db0 : DB := ⟨[⟨uuid0, "Classic", none, none, 0, 0⟩], []⟩

/-- Claim C4 counterexample: on an existing id and body `{}` the response is
400, but its `details` do NOT contain the claimed message "At least one
field (name, description, boardImage, or pieces) must be provided for
update" — the code says `boardSvg` where the claim says `boardImage`. -/
theorem c4_update_empty_body_400_counterexample :
    PG.existsId db0 uuid0 = true ∧
    ∃ r, updateCustomization db0 0 uuid0 (.obj []) = some (db0, r) ∧ r.status = 400 ∧
      "At least one field (name, description, boardImage, or pieces) must be provided for update"
        ∉ r.details.getD [] := by
  refine ⟨by decide, ⟨400, false, some "Validation failed", "Invalid request data",
    some ["At least one field (name, description, boardSvg, or pieces) must be provided for update"],
    none⟩, by decide, rfl, by decide⟩

/-- Claim C4 witness: the amended theorem applied to the concrete store
`db0` and id `uuid0`. -/
theorem c4_update_empty_body_400_witness :
    PG.existsId db0 uuid0 = true ∧
    (∃ r, updateCustomization db0 5 uuid0 (.obj []) = some (db0, r) ∧ r.status = 400 ∧
      r.details =
        some ["At least one field (name, description, boardSvg, or pieces) must be provided for update"]) :=
  ⟨by decide, c4_update_empty_body_400 db0 5 uuid0 (by decide)⟩

/-- The decoded byte count of a canonical base64 payload, after data-URI
prefix removal: 6 bits per base64 digit before the `=` padding, floored to
whole bytes — the length `Buffer.from(payload, 'base64')` yields.  This is
the claim-side meaning of "decoded size"; the code's check never computes
it (it uses `len * 3 / 4` on the undecoded text, padding included). -/
def b64DecodedBytes (s : String) : Nat :=
  6 * ((stripDataUrl s.data).takeWhile isB64Char).length / 8

/-- Stripping the data-URI prefix does nothing on a string starting with
`'A'`. -/
theorem stripDataUrl_A_head (rest : List Char) : stripDataUrl ('A' :: rest) = 'A' :: rest := by
  unfold stripDataUrl
  rw [show "data:".data = ['d', 'a', 't', 'a', ':'] from rfl]
  rw [show List.isPrefixOf ['d', 'a', 't', 'a', ':'] ('A' :: rest) = false from rfl]
  simp

/-- `takeWhile isB64Char` keeps exactly the `'A'` run of an
`'A'`-run-plus-padding string. -/
theorem takeWhile_repA (n : Nat) :
    (List.replicate n 'A' ++ ['=', '=']).takeWhile isB64Char = List.replicate n 'A' := by
  induction n with
  | zero => decide
  | succ n ih => simp [List.replicate_succ, List.takeWhile_cons, show isB64Char 'A' = true from rfl, ih]

/-- `dropWhile isB64Char` skips exactly the `'A'` run of an
`'A'`-run-plus-padding string. -/
theorem dropWhile_repA (n : Nat) :
    (List.replicate n 'A' ++ ['=', '=']).dropWhile isB64Char = ['=', '='] := by
  induction n with
  | zero => decide
  | succ n ih => simp [List.replicate_succ, List.dropWhile_cons, show isB64Char 'A' = true from rfl, ih]

/-- The canonical base64 encoding of a 102400-byte payload: 136534 digits
(here all `'A'`) followed by two `=` padding characters. -/
def s0 : String := ⟨List.replicate 136534 'A' ++ ['=', '=']⟩

theorem s0_data : s0.data = List.replicate 136534 'A' ++ ['=', '='] := rfl

theorem s0_head : s0.data = 'A' :: (List.replicate 136533 'A' ++ ['=', '=']) := by
  rw [s0_data, show (136534 : Nat) = 136533 + 1 from rfl, List.replicate_succ]
  rfl

theorem s0_strip : stripDataUrl s0.data = List.replicate 136534 'A' ++ ['=', '='] := by
  rw [s0_head, stripDataUrl_A_head]
  rw [show (136534 : Nat) = 136533 + 1 from rfl, List.replicate_succ]
  rfl

theorem s0_strip_len : (stripDataUrl s0.data).length = 136536 := by
  rw [s0_strip, List.length_append, List.length_replicate]
  rfl

theorem s0_not_empty : s0.data.isEmpty = false := by
  rw [s0_head]
  rfl

/-- `s0` decodes to exactly 102400 bytes. -/
theorem s0_decoded : b64DecodedBytes s0 = 102400 := by
  rw [b64DecodedBytes]
  rw [s0_strip]
  rw [takeWhile_repA]
  rw [List.length_replicate]

/-- Claim C3 counterexample: `s0` is a valid base64 payload whose decoded
size is exactly 100 KiB (102400 bytes), yet `isValidSvgSize` returns
`false` on it — the claim says the check returns `true` at this boundary. -/
theorem c3_size_boundary_counterexample :
    isValidBase64 (.str s0) = true ∧ b64DecodedBytes s0 = 102400 ∧
    isValidSvgSize (.str s0) = false := by
  refine ⟨?_, s0_decoded, ?_⟩
  · have hdrop : (stripDataUrl s0.data).dropWhile isB64Char = ['=', '='] := by
      rw [s0_strip]; exact dropWhile_repA _
    simp only [isValidBase64, s0_not_empty, Bool.false_eq_true, if_false, b64Shape, hdrop,
      s0_strip_len]
    decide
  · simp only [isValidSvgSize, s0_not_empty, Bool.false_eq_true, if_false, s0_strip_len]
    decide

/-- Claim C3 (amended): any payload whose decoded size reaches 102400 bytes
— exceeding it, or hitting the boundary exactly — is rejected by
`isValidSvgSize`, because the check's `len * 3 / 4` formula counts the
base64 padding; and on a non-empty string the check returns true exactly
when the source's `(len * 3) / 4 ≤ 100 * 1024` comparison of the stripped
length holds. -/
theorem c3_size_check (s : String) :
    (102400 ≤ b64DecodedBytes s → isValidSvgSize (.str s) = false) ∧
    (isValidSvgSize (.str s) = true ↔
      s.data ≠ [] ∧ sizeInBytes (stripDataUrl s.data).length ≤ 100 * 1024) := by
  constructor
  · intro h
    have hc : 136534 ≤ ((stripDataUrl s.data).takeWhile isB64Char).length := by
      unfold b64DecodedBytes at h
      omega
    have hL : 136534 ≤ (stripDataUrl s.data).length :=
      le_trans hc (List.Sublist.length_le (List.takeWhile_sublist _))
    have hne : s.data.isEmpty = false := by
      cases hd : s.data.isEmpty
      · rfl
      · rw [show s.data = [] by simpa using hd] at hL
        rw [show stripDataUrl [] = [] from rfl] at hL
        simp at hL
    simp only [isValidSvgSize, hne, Bool.false_eq_true, if_false]
    simp [show ¬(3 * (stripDataUrl s.data).length ≤ 409600) by omega]
  · rw [sizeInBytes_le_iff]
    cases hd : s.data.isEmpty
    · simp only [isValidSvgSize, hd, Bool.false_eq_true, if_false]
      simp [show s.data ≠ [] by simpa using hd]
    · simp only [isValidSvgSize, hd, if_true]
      simp [show s.data = [] by simpa using hd]

/-- Claim C3 witness: the amended theorem applied to `s0`, whose decoded
size is exactly the 102400-byte boundary. -/
theorem c3_size_check_witness :
    102400 ≤ b64DecodedBytes s0 ∧ isValidSvgSize (.str s0) = false :=
  ⟨le_of_eq s0_decoded.symm, (c3_size_check s0).1 (le_of_eq s0_decoded.symm)⟩

/-- The JSON object form of a piece record, as a client submits it. -/
def pieceToJs (r : PieceRec) : JsValue :=
  .obj [("type", .str r.type), ("color", .str r.color), ("svgData", .str r.svgData)]

/-- A concrete valid piece. -/
def pieceRec0 : PieceRec := ⟨"pawn", "white", "QUJD"⟩

/-- A concrete create payload whose `description` and `boardSvg` are the
empty string. -/
def payloadEmptyDesc : JsValue :=
  .obj [("name", .str "N"), ("description", .str ""), ("boardSvg", .str ""),
        ("pieces", .arr [pieceToJs pieceRec0])]

/-- Claim C10: when `create` succeeds, an empty-string `description` in the
payload — which the create validator accepts, its description rule checking
only `typeof === 'string'` — is persisted and returned as SQL NULL (`none`)
rather than the empty string, through the insert's `data.description ||
null` coercion; the same coercion maps an empty-string `boardSvg` to NULL;
and the row appended to the store carries the same coerced values the
returned customization shows. -/
theorem c10_empty_string_coerced_to_null (db : DB) (freshId : String) (now : Nat)
    (data : JsValue) (db' : DB) (cust : ChessCustomization)
    (hc : PG.create db freshId now data = some (db', cust)) :
    (jsGet data "description" = .str "" → cust.description = none ∧ descriptionErrs data = []) ∧
    (jsGet data "boardSvg" = .str "" → cust.boardSvg = none) ∧
    ∃ row, db'.custs = db.custs ++ [row] ∧ row.description = cust.description ∧
      row.boardSvg = cust.boardSvg := by
  unfold PG.create at hc
  split at hc
  · next nm ps heq1 heq2 =>
    split at hc
    · next rs heq3 =>
      simp only [Option.some.injEq, Prod.mk.injEq] at hc
      obtain ⟨h1, h2⟩ := hc
      subst h1 h2
      refine ⟨?_, ?_, ?_⟩
      · intro hdesc
        rw [hdesc]
        exact ⟨rfl, by simp [descriptionErrs, hdesc]⟩
      · intro hboard
        rw [hboard]
        rfl
      · exact ⟨_, rfl, rfl, rfl⟩
    · exact absurd hc (by simp)
  · exact absurd hc (by simp)

/-- Claim C10 witness: a concrete create with empty-string description and
boardSvg persists and returns both as `none`. -/
theorem c10_empty_string_coerced_to_null_witness :
    PG.create ⟨[], []⟩ uuid0 3 payloadEmptyDesc =
      some (⟨[⟨uuid0, "N", none, none, 3, 3⟩], [⟨uuid0, pieceRec0⟩]⟩,
            ⟨uuid0, "N", none, none, [pieceRec0], 3, 3⟩) ∧
    ((jsGet payloadEmptyDesc "description" = .str "" →
        (⟨uuid0, "N", none, none, [pieceRec0], 3, 3⟩ : ChessCustomization).description = none ∧
        descriptionErrs payloadEmptyDesc = []) ∧
     (jsGet payloadEmptyDesc "boardSvg" = .str "" →
        (⟨uuid0, "N", none, none, [pieceRec0], 3, 3⟩ : ChessCustomization).boardSvg = none) ∧
     ∃ row, (⟨[⟨uuid0, "N", none, none, 3, 3⟩], [⟨uuid0, pieceRec0⟩]⟩ : DB).custs =
        (⟨[], []⟩ : DB).custs ++ [row] ∧
        row.description = (⟨uuid0, "N", none, none, [pieceRec0], 3, 3⟩ : ChessCustomization).description ∧
        row.boardSvg = (⟨uuid0, "N", none, none, [pieceRec0], 3, 3⟩ : ChessCustomization).boardSvg) :=
  ⟨by decide, c10_empty_string_coerced_to_null ⟨[], []⟩ uuid0 3 payloadEmptyDesc _ _ (by decide)⟩

theorem jsPieceFields_pieceToJs (p : PieceRec) : jsPieceFields (pieceToJs p) = some p := rfl

/-- A piece that `validateChessPiece` fully accepts has three string fields
(so the insert loop extracts it) that are all non-empty (so the read-path
truthiness filter keeps it). -/
theorem validateChessPiece_extract (p : JsValue) (i : Nat)
    (h : validateChessPiece p i = []) :
    ∃ r, jsPieceFields p = some r ∧ PG.pieceTruthy r = true := by
  unfold validateChessPiece at h
  split at h
  · simp at h
  · simp only [List.append_eq_nil] at h
    obtain ⟨⟨h1, h2⟩, h3⟩ := h
    have ht : pieceTypeBad (jsGet p "type") = false := by
      by_contra hx
      simp only [Bool.not_eq_false] at hx
      rw [if_pos hx] at h1
      simp at h1
    have hcb : pieceColorBad (jsGet p "color") = false := by
      by_contra hx
      simp only [Bool.not_eq_false] at hx
      rw [if_pos hx] at h2
      simp at h2
    have hd : (truthy (jsGet p "svgData") && isStr (jsGet p "svgData")) = true := by
      unfold pieceSvgDataErrs at h3
      split at h3
      · simp at h3
      · next hga => simpa using hga
    rw [pieceTypeBad] at ht
    rw [pieceColorBad] at hcb
    simp only [Bool.or_eq_false_iff, Bool.not_eq_false'] at ht hcb
    obtain ⟨htt, hti⟩ := ht
    obtain ⟨hct, hci⟩ := hcb
    obtain ⟨hdt, hds⟩ : truthy (jsGet p "svgData") = true ∧ isStr (jsGet p "svgData") = true := by
      simpa using hd
    obtain ⟨ts, hts⟩ : ∃ s, jsGet p "type" = .str s := by
      cases hjt : jsGet p "type"
      case str s => exact ⟨s, rfl⟩
      all_goals (rw [hjt] at hti; simp [jsIncludes] at hti)
    obtain ⟨cs, hcs⟩ : ∃ s, jsGet p "color" = .str s := by
      cases hjc : jsGet p "color"
      case str s => exact ⟨s, rfl⟩
      all_goals (rw [hjc] at hci; simp [jsIncludes] at hci)
    obtain ⟨ds, hdss⟩ : ∃ s, jsGet p "svgData" = .str s := by
      cases hjd : jsGet p "svgData"
      case str s => exact ⟨s, rfl⟩
      all_goals (rw [hjd] at hds; simp [isStr] at hds)
    refine ⟨⟨ts, cs, ds⟩, ?_, ?_⟩
    · unfold jsPieceFields
      rw [hts, hcs, hdss]
    · rw [hts] at htt
      rw [hcs] at hct
      rw [hdss] at hdt
      unfold PG.pieceTruthy
      simp only [truthy] at htt hct hdt
      simp [htt, hct, hdt]

/-- The insert loop succeeds on a list of fully validated pieces, returning
records the read-path truthiness filter keeps, one per input in order. -/
theorem mapOptPieces_all (ps : List JsValue)
    (h : ∀ p ∈ ps, ∃ r, jsPieceFields p = some r ∧ PG.pieceTruthy r = true) :
    ∃ rs, mapOptPieces ps = some rs ∧ rs.length = ps.length ∧
      ∀ r ∈ rs, PG.pieceTruthy r = true := by
  induction ps with
  | nil => exact ⟨[], rfl, rfl, by simp⟩
  | cons p ps ih =>
    obtain ⟨r, hr, hrt⟩ := h p (List.mem_cons_self p ps)
    obtain ⟨rs, hrs, hlen, hall⟩ := ih (fun q hq => h q (List.mem_cons_of_mem p hq))
    refine ⟨r :: rs, ?_, by simp [hlen], ?_⟩
    · rw [mapOptPieces, hr, hrs]
    · intro x hx
      rcases List.mem_cons.mp hx with rfl | hx
      · exact hrt
      · exact hall x hx

theorem mapOptPieces_map_pieceToJs (P : List PieceRec) :
    mapOptPieces (P.map pieceToJs) = some P := by
  induction P with
  | nil => rfl
  | cons p ps ih =>
    rw [List.map_cons, mapOptPieces, jsPieceFields_pieceToJs, ih]

/-- Folding further piece rows of one customization into an accumulator
that already carries it appends the pieces in row order. -/
theorem foldl_addRow_acc (c : CustRow) (ps : List PieceRec)
    (hps : ∀ p ∈ ps, PG.pieceTruthy p = true) :
    ∀ g : ChessCustomization, g.id = c.id →
      List.foldl PG.addRow [g] (ps.map (fun p => (c, some p))) =
        [{ g with pieces := g.pieces ++ ps }] := by
  induction ps with
  | nil => intro g _; simp
  | cons p ps ih =>
    intro g hid
    have hstep : PG.addRow [g] (c, some p) = [{ g with pieces := g.pieces ++ [p] }] := by
      unfold PG.addRow
      simp [hid, hps p (List.mem_cons_self p ps)]
    rw [List.map_cons, List.foldl_cons, hstep,
      ih (fun q hq => hps q (List.mem_cons_of_mem p hq)) { g with pieces := g.pieces ++ [p] } hid]
    simp

/-- `transformRowsToCustomizations` on the join rows of one customization
with a non-empty, all-truthy piece list rebuilds exactly that piece list. -/
theorem transform_single_with_pieces (c : CustRow) (p : PieceRec) (ps : List PieceRec)
    (hps : ∀ q ∈ p :: ps, PG.pieceTruthy q = true) :
    PG.transformRowsToCustomizations ((p :: ps).map (fun q => (c, some q))) =
      [⟨c.id, c.name, c.description, c.boardSvg, p :: ps, c.createdAt, c.updatedAt⟩] := by
  unfold PG.transformRowsToCustomizations
  rw [List.map_cons, List.foldl_cons]
  have hstep : PG.addRow [] (c, some p) =
      [⟨c.id, c.name, c.description, c.boardSvg, [p], c.createdAt, c.updatedAt⟩] := by
    unfold PG.addRow
    simp [hps p (List.mem_cons_self p ps)]
  rw [hstep, foldl_addRow_acc c ps (fun q hq => hps q (List.mem_cons_of_mem p hq))
    ⟨c.id, c.name, c.description, c.boardSvg, [p], c.createdAt, c.updatedAt⟩ rfl]
  simp

/-- `transformRowsToCustomizations` on the single null-piece row a LEFT
JOIN produces for a piece-less customization. -/
theorem transform_single_no_pieces (c : CustRow) :
    PG.transformRowsToCustomizations [(c, none)] =
      [⟨c.id, c.name, c.description, c.boardSvg, [], c.createdAt, c.updatedAt⟩] := rfl


/-- When no parent column is supplied, `update`'s per-row edit leaves the
`customizations` table unchanged. -/
theorem map_applyUpd_id (db : DB) (now : Nat) (id : String) :
    db.custs.map (fun r => if r.id == id then PG.applyUpd r now none none none else r) =
      db.custs := by
  have hone : ∀ r ∈ db.custs,
      (if r.id == id then PG.applyUpd r now none none none else r) = r := by
    intro r _
    by_cases h : (r.id == id) = true
    · rw [if_pos h]; rfl
    · rw [if_neg h]
  rw [List.map_congr_left hone, List.map_id']

/-- Claim C2: for an existing customization id (its row unique in the
store) and any valid pieces sequence `P`, `update(id, {pieces: P})`
followed by `getById(id)` yields a customization whose pieces are exactly
`P` in order; the update deletes every previously stored child row of this
id and inserts the new set in array order, so the store's rows for this id
are exactly `P`'s, with no residue. -/
theorem c2_update_pieces_roundtrip (db : DB) (now : Nat) (id : String) (c : CustRow)
    (P : List PieceRec)
    (hid : isValidUUID id = true)
    (hc : db.custs.filter (fun r => r.id == id) = [c])
    (hP : ∀ p ∈ P, validateChessPiece (pieceToJs p) 0 = []) :
    ∃ db' g, PG.update db now id (.obj [("pieces", .arr (P.map pieceToJs))]) =
        some (db', some g) ∧
      PG.getById db' id = some g ∧ g.pieces = P ∧
      db'.pieceRows.filter (fun r => r.cid == id) =
        P.map (fun r => (⟨id, r⟩ : PieceRow)) := by
  have hcmem : c ∈ db.custs.filter (fun r => r.id == id) := by
    rw [hc]; exact List.mem_singleton_self c
  obtain ⟨hcin, hcbeq⟩ := List.mem_filter.mp hcmem
  have hcid : c.id = id := by simpa using hcbeq
  have hany : db.custs.any (fun r => r.id == id) = true := List.any_eq_true.mpr ⟨c, hcin, hcbeq⟩
  have htruthy : ∀ p ∈ P, PG.pieceTruthy p = true := by
    intro p hp
    obtain ⟨r, hr, ht⟩ := validateChessPiece_extract (pieceToJs p) 0 (hP p hp)
    rw [jsPieceFields_pieceToJs] at hr
    obtain rfl : p = r := Option.some.inj hr
    exact ht
  have hpf : ((db.pieceRows.filter (fun p => !(p.cid == id))) ++
      P.map (fun r => (⟨id, r⟩ : PieceRow))).filter (fun r => r.cid == id) =
      P.map (fun r => (⟨id, r⟩ : PieceRow)) := by
    rw [List.filter_append]
    have h1 : (db.pieceRows.filter (fun p => !(p.cid == id))).filter
        (fun r => r.cid == id) = [] := by
      rw [List.filter_filter, List.filter_eq_nil_iff]
      intro a _
      cases hq : (a.cid == id) <;> simp [hq]
    have h2 : (P.map (fun r => (⟨id, r⟩ : PieceRow))).filter (fun r => r.cid == id) =
        P.map (fun r => (⟨id, r⟩ : PieceRow)) := by
      rw [List.filter_eq_self]
      intro a ha
      obtain ⟨p, _, rfl⟩ := List.mem_map.mp ha
      simp
    rw [h1, h2, List.nil_append]
  have hget : PG.getById
      ⟨db.custs, (db.pieceRows.filter (fun p => !(p.cid == id))) ++
        P.map (fun r => (⟨id, r⟩ : PieceRow))⟩ id =
      some ⟨c.id, c.name, c.description, c.boardSvg, P, c.createdAt, c.updatedAt⟩ := by
    have hjoin : PG.joinRows
        ⟨db.custs, (db.pieceRows.filter (fun p => !(p.cid == id))) ++
          P.map (fun r => (⟨id, r⟩ : PieceRow))⟩ id =
        match P with
        | [] => [(c, none)]
        | _ :: _ => P.map (fun q => (c, some q)) := by
      unfold PG.joinRows
      rw [show (⟨db.custs, (db.pieceRows.filter (fun p => !(p.cid == id))) ++
        P.map (fun r => (⟨id, r⟩ : PieceRow))⟩ : DB).custs = db.custs from rfl]
      rw [hc]
      rw [List.flatMap_cons, List.flatMap_nil, List.append_nil]
      rw [hcid]
      rw [show (⟨db.custs, (db.pieceRows.filter (fun p => !(p.cid == id))) ++
        P.map (fun r => (⟨id, r⟩ : PieceRow))⟩ : DB).pieceRows =
        (db.pieceRows.filter (fun p => !(p.cid == id))) ++
        P.map (fun r => (⟨id, r⟩ : PieceRow)) from rfl]
      rw [hpf]
      cases P with
      | nil => rfl
      | cons p ps =>
        rw [List.map_cons]
        show ((⟨id, p⟩ : PieceRow) :: List.map (fun r => (⟨id, r⟩ : PieceRow)) ps).map
            (fun q => (c, some q.piece)) =
          List.map (fun q => (c, some q)) (p :: ps)
        rw [List.map_cons, List.map_map]
        rfl
    unfold PG.getById
    rw [hid]
    simp only [Bool.not_true, Bool.false_eq_true, if_false]
    rw [hjoin]
    cases P with
    | nil =>
      simp only [List.isEmpty_cons, Bool.false_eq_true, if_false]
      rw [transform_single_no_pieces]
      rfl
    | cons p ps =>
      rw [transform_single_with_pieces c p ps htruthy]
      rw [List.map_cons]
      simp only [List.isEmpty_cons, Bool.false_eq_true, if_false]
      rfl
  refine ⟨⟨db.custs, (db.pieceRows.filter (fun p => !(p.cid == id))) ++
      P.map (fun r => (⟨id, r⟩ : PieceRow))⟩,
    ⟨c.id, c.name, c.description, c.boardSvg, P, c.createdAt, c.updatedAt⟩, ?_, hget, rfl, hpf⟩
  unfold PG.update
  rw [hid]
  simp only [Bool.not_true, Bool.false_eq_true, if_false]
  rw [hany]
  simp only [Bool.not_true, Bool.false_eq_true, if_false]
  rw [show jsGet (.obj [("pieces", .arr (P.map pieceToJs))]) "name" = .undefined from rfl]
  rw [show jsGet (.obj [("pieces", .arr (P.map pieceToJs))]) "description" = .undefined from rfl]
  rw [show jsGet (.obj [("pieces", .arr (P.map pieceToJs))]) "boardSvg" = .undefined from rfl]
  rw [show jsGet (.obj [("pieces", .arr (P.map pieceToJs))]) "pieces" =
    .arr (P.map pieceToJs) from rfl]
  rw [show PG.updPieces (.arr (P.map pieceToJs)) = some (some P) by
    rw [PG.updPieces, mapOptPieces_map_pieceToJs]; rfl]
  simp only [PG.updStrOpt, PG.updNullable]
  rw [map_applyUpd_id db now id]
  rw [hget]

/-- A second concrete valid piece. -/
def pieceRec1 : PieceRec := ⟨"rook", "black", "QUJD"⟩

/-- A store holding one customization that already owns one piece. -/
def dbWithPiece : DB := ⟨[⟨uuid0, "Classic", none, none, 0, 0⟩], [⟨uuid0, pieceRec0⟩]⟩

/-- Claim C2 witness: replacing the stored pawn by a rook leaves exactly
the rook, in the store and in the read-back customization. -/
theorem c2_update_pieces_roundtrip_witness :
    isValidUUID uuid0 = true ∧
    dbWithPiece.custs.filter (fun r => r.id == uuid0) =
      [⟨uuid0, "Classic", none, none, 0, 0⟩] ∧
    (∀ p ∈ [pieceRec1], validateChessPiece (pieceToJs p) 0 = []) ∧
    (∃ db' g, PG.update dbWithPiece 9 uuid0 (.obj [("pieces", .arr ([pieceRec1].map pieceToJs))]) =
        some (db', some g) ∧
      PG.getById db' uuid0 = some g ∧ g.pieces = [pieceRec1] ∧
      db'.pieceRows.filter (fun r => r.cid == uuid0) =
        [pieceRec1].map (fun r => (⟨uuid0, r⟩ : PieceRow))) :=
  ⟨by decide, by decide, by decide,
   c2_update_pieces_roundtrip dbWithPiece 9 uuid0 ⟨uuid0, "Classic", none, none, 0, 0⟩
     [pieceRec1] (by decide) (by decide) (by decide)⟩

/-- Every piece of an error-free `forEach` pass is itself error-free at
some index. -/
theorem piecesErrsAux_eq_nil (ps : List JsValue) :
    ∀ i, piecesErrsAux i ps = [] → ∀ p ∈ ps, ∃ j, validateChessPiece p j = [] := by
  induction ps with
  | nil => intro i _ p hp; simp at hp
  | cons q rest ih =>
    intro i h p hp
    rw [piecesErrsAux] at h
    obtain ⟨h1, h2⟩ := List.append_eq_nil.mp h
    rcases List.mem_cons.mp hp with rfl | hp2
    · exact ⟨i, h1⟩
    · exact ih (i + 1) h2 p hp2

/-- What a payload accepted by `validateCreateCustomization` must look
like: a string name, a non-empty array of individually valid pieces, a
description that is absent or a string, and a boardSvg that is absent or a
non-empty (valid-base64) string. -/
theorem validateCreate_extract (data : JsValue)
    (h : (validateCreateCustomization data).isValid = true) :
    (∃ nm, jsGet data "name" = .str nm) ∧
    (∃ ps, jsGet data "pieces" = .arr ps ∧ ps ≠ [] ∧
      ∀ p ∈ ps, ∃ j, validateChessPiece p j = []) ∧
    (jsGet data "description" = .undefined ∨ ∃ s, jsGet data "description" = .str s) ∧
    (jsGet data "boardSvg" = .undefined ∨
      ∃ s, jsGet data "boardSvg" = .str s ∧ s.data.isEmpty = false) := by
  unfold validateCreateCustomization at h
  split at h
  · simp at h
  · simp only [List.isEmpty_eq_true, List.append_eq_nil] at h
    obtain ⟨⟨⟨hA, hB⟩, hC⟩, hD⟩ := h
    refine ⟨?_, ?_, ?_, ?_⟩
    · have hbad : reqNameBad (jsGet data "name") = false := by
        by_contra hx
        simp only [Bool.not_eq_false] at hx
        rw [createNameErrs, if_pos hx] at hA
        simp at hA
      rw [reqNameBad] at hbad
      simp only [Bool.or_eq_false_iff, Bool.not_eq_false'] at hbad
      obtain ⟨⟨_, hstr⟩, _⟩ := hbad
      cases hj : jsGet data "name"
      case str s => exact ⟨s, rfl⟩
      all_goals (rw [hj] at hstr; simp [isStr] at hstr)
    · rw [createPiecesErrs] at hB
      split at hB
      · simp at hB
      · next x ps hne heq =>
        exact ⟨ps, heq, hne, piecesErrsAux_eq_nil ps 0 hB⟩
      · simp at hB
    · rw [descriptionErrs] at hC
      split at hC
      · next heq => exact Or.inl heq
      · next s heq => exact Or.inr ⟨s, heq⟩
      · simp at hC
    · cases hj : jsGet data "boardSvg"
      case undefined => exact Or.inl rfl
      case str s =>
        rw [hj] at hD
        simp only [boardSvgErrs, List.append_eq_nil] at hD
        obtain ⟨hD1, _⟩ := hD
        have hb64 : isValidBase64 (.str s) = true := by
          by_contra hx
          have hx2 : isValidBase64 (.str s) = false := Bool.eq_false_iff.mpr hx
          rw [hx2] at hD1
          simp at hD1
        have hne : s.data.isEmpty = false := by
          by_contra hx
          have hx2 : s.data.isEmpty = true := by
            cases he : s.data.isEmpty
            · exact absurd he hx
            · rfl
          rw [isValidBase64, if_pos hx2] at hb64
          simp at hb64
        exact Or.inr ⟨s, rfl, hne⟩
      all_goals (rw [hj] at hD; simp [boardSvgErrs] at hD)

/-- Claim C1 (amended): for every payload accepted by
`validateCreateCustomization` whose description is not the empty string,
`create` (at a fresh valid UUID and timestamp `now`) followed by `getById`
on the returned id yields an Aggregate whose pieces are exactly the
payload's pieces' (type, color, svgData) projections in order, whose name,
description and boardSvg equal the payload's fields, with the generated id
and `createdAt = updatedAt = now` — and the read-back Aggregate coincides
with the one `create` itself returned.  (An empty-string description is
excluded: the insert's `|| null` coercion stores it as NULL, see the
counterexample and claim C10.) -/
theorem c1_create_getById_roundtrip (db : DB) (freshId : String) (now : Nat) (data : JsValue)
    (hval : (validateCreateCustomization data).isValid = true)
    (hid : isValidUUID freshId = true)
    (hfreshC : ∀ r ∈ db.custs, (r.id == freshId) = false)
    (hfreshP : ∀ r ∈ db.pieceRows, (r.cid == freshId) = false)
    (hdesc : isEmptyStrVal (jsGet data "description") = false) :
    ∃ db' cust g ps rs,
      jsGet data "pieces" = .arr ps ∧ mapOptPieces ps = some rs ∧
      PG.create db freshId now data = some (db', cust) ∧
      PG.getById db' freshId = some g ∧
      g.pieces = rs ∧
      jsGet data "name" = .str g.name ∧
      g.description = jsOptStr (jsGet data "description") ∧
      g.boardSvg = jsOptStr (jsGet data "boardSvg") ∧
      g.id = freshId ∧ g.createdAt = now ∧ g.updatedAt = now ∧ g = cust := by
  obtain ⟨⟨nm, hnm⟩, ⟨ps, hps, hpsne, hpieces⟩, hdescShape, hboardShape⟩ :=
    validateCreate_extract data hval
  have hall : ∀ p ∈ ps, ∃ r, jsPieceFields p = some r ∧ PG.pieceTruthy r = true := by
    intro p hp
    obtain ⟨j, hj⟩ := hpieces p hp
    exact validateChessPiece_extract p j hj
  obtain ⟨rs, hrs, hlen, hrstruthy⟩ := mapOptPieces_all ps hall
  obtain ⟨p1, rs2, hrscons⟩ : ∃ p1 rs2, rs = p1 :: rs2 := by
    cases hrsc : rs with
    | nil =>
      rw [hrsc] at hlen
      cases ps with
      | nil => exact absurd rfl hpsne
      | cons a b => simp at hlen
    | cons a b => exact ⟨a, b, rfl⟩
  have hcreate : PG.create db freshId now data = some
      (⟨db.custs ++ [⟨freshId, nm, jsOrNull (jsGet data "description"),
          jsOrNull (jsGet data "boardSvg"), now, now⟩],
        db.pieceRows ++ rs.map (fun r => (⟨freshId, r⟩ : PieceRow))⟩,
       ⟨freshId, nm, jsOrNull (jsGet data "description"),
          jsOrNull (jsGet data "boardSvg"), rs, now, now⟩) := by
    simp only [PG.create, hnm, hps, hrs]
  have hgdesc : jsOrNull (jsGet data "description") = jsOptStr (jsGet data "description") := by
    rcases hdescShape with hu | ⟨s, hsdesc⟩
    · rw [hu]; rfl
    · rw [hsdesc]
      rw [hsdesc] at hdesc
      simp only [isEmptyStrVal] at hdesc
      simp [jsOrNull, jsOptStr, hdesc]
  have hgboard : jsOrNull (jsGet data "boardSvg") = jsOptStr (jsGet data "boardSvg") := by
    rcases hboardShape with hu | ⟨s, hsb, hsne⟩
    · rw [hu]; rfl
    · rw [hsb]
      simp [jsOrNull, jsOptStr, hsne]
  have hjoin : PG.joinRows
      ⟨db.custs ++ [⟨freshId, nm, jsOrNull (jsGet data "description"),
          jsOrNull (jsGet data "boardSvg"), now, now⟩],
        db.pieceRows ++ rs.map (fun r => (⟨freshId, r⟩ : PieceRow))⟩ freshId =
      rs.map (fun q => ((⟨freshId, nm, jsOrNull (jsGet data "description"),
          jsOrNull (jsGet data "boardSvg"), now, now⟩ : CustRow), some q)) := by
    unfold PG.joinRows
    have hcf : (db.custs ++ [(⟨freshId, nm, jsOrNull (jsGet data "description"),
        jsOrNull (jsGet data "boardSvg"), now, now⟩ : CustRow)]).filter
        (fun r => r.id == freshId) =
        [⟨freshId, nm, jsOrNull (jsGet data "description"),
          jsOrNull (jsGet data "boardSvg"), now, now⟩] := by
      rw [List.filter_append]
      rw [List.filter_eq_nil_iff.mpr (fun a ha => by simp [hfreshC a ha])]
      rw [List.nil_append]
      simp
    rw [show (⟨db.custs ++ [⟨freshId, nm, jsOrNull (jsGet data "description"),
        jsOrNull (jsGet data "boardSvg"), now, now⟩],
        db.pieceRows ++ rs.map (fun r => (⟨freshId, r⟩ : PieceRow))⟩ : DB).custs =
        db.custs ++ [⟨freshId, nm, jsOrNull (jsGet data "description"),
        jsOrNull (jsGet data "boardSvg"), now, now⟩] from rfl]
    rw [hcf, List.flatMap_cons, List.flatMap_nil, List.append_nil]
    have hpr : (db.pieceRows ++ rs.map (fun r => (⟨freshId, r⟩ : PieceRow))).filter
        (fun p => p.cid == freshId) = rs.map (fun r => (⟨freshId, r⟩ : PieceRow)) := by
      rw [List.filter_append]
      rw [List.filter_eq_nil_iff.mpr (fun a ha => by simp [hfreshP a ha])]
      rw [List.nil_append]
      rw [List.filter_eq_self.mpr]
      intro a ha
      obtain ⟨r, _, rfl⟩ := List.mem_map.mp ha
      simp
    rw [show ((⟨db.custs ++ [⟨freshId, nm, jsOrNull (jsGet data "description"),
        jsOrNull (jsGet data "boardSvg"), now, now⟩],
        db.pieceRows ++ rs.map (fun r => (⟨freshId, r⟩ : PieceRow))⟩ : DB)).pieceRows =
        db.pieceRows ++ rs.map (fun r => (⟨freshId, r⟩ : PieceRow)) from rfl]
    rw [hpr]
    rw [hrscons, List.map_cons]
    show ((⟨freshId, p1⟩ : PieceRow) :: List.map (fun r => (⟨freshId, r⟩ : PieceRow)) rs2).map
        (fun q => ((⟨freshId, nm, jsOrNull (jsGet data "description"),
          jsOrNull (jsGet data "boardSvg"), now, now⟩ : CustRow), some q.piece)) =
      List.map (fun q => ((⟨freshId, nm, jsOrNull (jsGet data "description"),
          jsOrNull (jsGet data "boardSvg"), now, now⟩ : CustRow), some q)) (p1 :: rs2)
    rw [List.map_cons, List.map_map, List.map_cons]
    rfl
  have hget : PG.getById
      ⟨db.custs ++ [⟨freshId, nm, jsOrNull (jsGet data "description"),
          jsOrNull (jsGet data "boardSvg"), now, now⟩],
        db.pieceRows ++ rs.map (fun r => (⟨freshId, r⟩ : PieceRow))⟩ freshId =
      some ⟨freshId, nm, jsOrNull (jsGet data "description"),
          jsOrNull (jsGet data "boardSvg"), rs, now, now⟩ := by
    unfold PG.getById
    rw [hid]
    simp only [Bool.not_true, Bool.false_eq_true, if_false]
    rw [hjoin, hrscons]
    rw [transform_single_with_pieces _ p1 rs2 (by rw [← hrscons]; exact hrstruthy)]
    rw [List.map_cons]
    simp only [List.isEmpty_cons, Bool.false_eq_true, if_false]
    rfl
  refine ⟨_, _, _, ps, rs, hps, hrs, hcreate, hget, rfl, ?_, ?_, ?_, rfl, rfl, rfl, rfl⟩
  · rw [hnm]
  · exact hgdesc
  · exact hgboard

/-- A valid create payload whose description is the empty string. -/
def payloadDescEmpty : JsValue :=
  .obj [("name", .str "Test"), ("description", .str ""), ("pieces", .arr [pieceToJs pieceRec0])]

/-- Claim C1 counterexample: the payload `{name:"Test", description:"",
pieces:[...]}` passes `validateCreateCustomization`, but after `create`
then `getById` the Aggregate's description is `none` (SQL NULL), not the
payload's empty string — the round-trip equality the claim states fails on
the description field. -/
theorem c1_create_getById_roundtrip_counterexample :
    (validateCreateCustomization payloadDescEmpty).isValid = true ∧
    ∃ db' cust g,
      PG.create ⟨[], []⟩ uuid0 5 payloadDescEmpty = some (db', cust) ∧
      PG.getById db' uuid0 = some g ∧
      jsOptStr (jsGet payloadDescEmpty "description") = some "" ∧
      g.description = none ∧
      g.description ≠ jsOptStr (jsGet payloadDescEmpty "description") := by
  refine ⟨by decide, ⟨[⟨uuid0, "Test", none, none, 5, 5⟩], [⟨uuid0, pieceRec0⟩]⟩,
    ⟨uuid0, "Test", none, none, [pieceRec0], 5, 5⟩,
    ⟨uuid0, "Test", none, none, [pieceRec0], 5, 5⟩, by decide, by decide, rfl, rfl, by decide⟩

/-- A valid create payload with no description field. -/
def payloadCreate : JsValue :=
  .obj [("name", .str "Test"), ("pieces", .arr [pieceToJs pieceRec0])]

/-- Claim C1 witness: the amended round-trip at a concrete empty store,
fresh UUID and payload. -/
theorem c1_create_getById_roundtrip_witness :
    (validateCreateCustomization payloadCreate).isValid = true ∧
    isValidUUID uuid0 = true ∧
    (∀ r ∈ (⟨[], []⟩ : DB).custs, (r.id == uuid0) = false) ∧
    (∀ r ∈ (⟨[], []⟩ : DB).pieceRows, (r.cid == uuid0) = false) ∧
    isEmptyStrVal (jsGet payloadCreate "description") = false ∧
    (∃ db' cust g ps rs,
      jsGet payloadCreate "pieces" = .arr ps ∧ mapOptPieces ps = some rs ∧
      PG.create ⟨[], []⟩ uuid0 5 payloadCreate = some (db', cust) ∧
      PG.getById db' uuid0 = some g ∧
      g.pieces = rs ∧
      jsGet payloadCreate "name" = .str g.name ∧
      g.description = jsOptStr (jsGet payloadCreate "description") ∧
      g.boardSvg = jsOptStr (jsGet payloadCreate "boardSvg") ∧
      g.id = uuid0 ∧ g.createdAt = 5 ∧ g.updatedAt = 5 ∧ g = cust) :=
  ⟨by decide, by decide, by decide, by decide, by decide,
   c1_create_getById_roundtrip ⟨[], []⟩ uuid0 5 payloadCreate
     (by decide) (by decide) (by decide) (by decide) (by decide)⟩
